import Mathlib

/-!
# Lifecycle hooks of the kata containerd shim (`containerd-shim/kata/hook.go`)

A shallow embedding of `runHook`, `runHooks`, `preStartHooks`, `postStartHooks`
and `postStopHooks`.

The Go code talks to the operating system (`os.Getpid`, `cmd.Start`, `cmd.Wait`,
`time.After`, `select`, `syscall.Kill`) and to the logger (`logrus`).  The
embedding makes both explicit:

* what the operating system answers during one call of `runHook` is an
  `Outcome`, an argument of the model; every theorem quantifies over it;
* what the code does to the outside world is returned as a list of `Effect`s
  (for `runHook`) or `PhaseEvent`s (for `runHooks`), in program order.

The `context.Context` argument is never read by the source and is left out.
-/

namespace Kata

/-! ## Data model -/

/-- An error value handed back by the operating system or a library call
(`cmd.Start`, `cmd.Wait`, `syscall.Kill`); `msg` is what its `Error()` method prints. -/
structure OSError where
  msg : String
  deriving DecidableEq, Repr

/-- A Go `error` value as `runHook` can return it: either an error it received
from a call and passes on (`os`), or a fresh error it built with `fmt.Errorf`
(`errorf`, carrying the formatted text). -/
inductive GoError where
  | os (e : OSError)
  | errorf (text : String)
  deriving DecidableEq, Repr

/-- The `Error()` method. -/
def GoError.Error : GoError → String
  | .os e => e.msg
  | .errorf text => text

/-- The fields of `specs.Hook` that the source reads. `Timeout` is a `*int`:
`none` is the nil pointer. -/
structure Hook where
  Path : String
  Args : List String
  Env : List String
  Timeout : Option Int
  deriving DecidableEq, Repr

/-- The fields of `specs.State` that `runHook` sets (hook.go lines 25-29). -/
structure State where
  Pid : Int
  Bundle : String
  ID : String
  deriving DecidableEq, Repr

/-- The fields of `sysexec.Cmd` that `runHook` sets (hook.go lines 37-44); the two
output buffers are represented by the text found in them, see `Outcome`. -/
structure Cmd where
  Path : String
  Args : List String
  Env : List String
  Stdin : String
  deriving DecidableEq, Repr

/-- A Go slice of hooks: `none` is the nil slice, `some l` a non-nil slice with
the elements `l`. -/
abbrev HookSlice := Option (List Hook)

/-- The elements a `for ... range` loop visits: none for the nil slice. -/
def HookSlice.elems : HookSlice → List Hook
  | none => []
  | some l => l

/-- The three hook lists of `specs.Hooks` that the source reads. -/
structure Hooks where
  Prestart : HookSlice
  Poststart : HookSlice
  Poststop : HookSlice
  deriving DecidableEq, Repr

/-- The part of `oci.CompatOCISpec` that the source reads: the pointer `Hooks`. -/
structure CompatOCISpec where
  Hooks : Option Hooks
  deriving DecidableEq, Repr

/-- Signal number of `syscall.SIGKILL`. -/
def SIGKILL : Nat := 9

/-- Nanoseconds in `time.Second`. -/
def Second : Int := 1000000000

/-- Two's complement wrap-around of a 64-bit signed integer. -/
def wrapInt64 (x : Int) : Int :=
  (x + 2 ^ 63) % 2 ^ 64 - 2 ^ 63

/-- The answers of the outside world during one call of `runHook`.  Only the
answers to calls that the code really makes are consulted. -/
structure Outcome where
  /-- Result of `os.Getpid()`. -/
  getpid : Int
  /-- Result of `cmd.Start()`: `none` is a nil error. -/
  start : Option OSError
  /-- Value of `cmd.Process.Pid` after a successful start. -/
  pid : Int
  /-- Result of `cmd.Wait()`, called on the calling path (line 51) or by the
  goroutine (line 57): `none` is a nil error. -/
  wait : Option OSError
  /-- Text of the `stdout` buffer when it is read. -/
  stdout : String
  /-- Text of the `stderr` buffer when it is read. -/
  stderr : String
  /-- Which case the `select` statement picks: `true` is the `time.After` case,
  `false` the `done` case. -/
  timerFirst : Bool
  /-- Result of `syscall.Kill`: `none` is a nil error. -/
  kill : Option OSError
  deriving DecidableEq, Repr

/-- What one call of `runHook` does to the outside world. -/
inductive Effect where
  /-- The call `cmd.Start()` on the calling path. -/
  | start (cmd : Cmd)
  /-- The call `cmd.Wait()` on the calling path (hook.go line 51). -/
  | wait
  /-- The goroutine of hook.go lines 56-59 is started; it calls `cmd.Wait()` and
  sends the result on `done`. -/
  | goWait
  /-- The call `time.After(d)`, `d` in nanoseconds. -/
  | timer (d : Int)
  /-- The call `syscall.Kill(pid, sig)`. -/
  | kill (pid : Int) (sig : Nat)
  deriving DecidableEq, Repr

/-- The value logged under a `logrus` field. -/
inductive FieldValue where
  | str (s : String)
  | err (e : GoError)
  deriving DecidableEq, Repr

/-- A record written with `logrus.WithFields(fields).Error(message)`. -/
structure LogRecord where
  fields : List (String × FieldValue)
  message : String
  deriving DecidableEq, Repr

/-- What one call of `runHooks` does, in program order: calls of `runHook`
(with the effects of that call) and records handed to the logger. -/
inductive PhaseEvent where
  | invoke (hook : Hook) (effects : List Effect)
  | record (r : LogRecord)
  deriving DecidableEq, Repr

/-! ## The lifecycle state payload

`runHook` serialises the state with `json.Marshal`; neither that function nor the
field tags of `specs.State` are part of `hook.go`.  They are modelled from the
specification (section 6): a JSON object with the fields `pid` (integer),
`bundle` (string) and `id` (string).  Go strings are modelled as Lean strings,
that is as sequences of Unicode characters. -/

/-- Modelled from the spec: the values of the payload of section 6, which names
integers and strings only; the JSON library that `runHook` calls is not part of
`hook.go`. -/
inductive JValue where
  | num (n : Int)
  | str (s : String)
  deriving DecidableEq, Repr

/-- Modelled from the spec: part of the absent `json.Marshal`: the decimal digit
of a number below ten. -/
def digitChar (d : Nat) : Char := Char.ofNat (48 + d)

/-- Modelled from the spec: part of the absent `json.Marshal`: decimal digits of a
natural number, most significant first; `fuel` bounds the number of digits. -/
def decimalFuel : Nat → Nat → List Char
  | 0, _ => []
  | fuel + 1, n =>
    if n < 10 then [digitChar n] else decimalFuel fuel (n / 10) ++ [digitChar (n % 10)]

/-- Modelled from the spec: part of the absent `json.Marshal`: decimal digits of a
natural number. -/
def decimal (n : Nat) : List Char := decimalFuel (n + 1) n

/-- Modelled from the spec: part of the absent `json.Marshal`: a JSON integer, with
a leading minus sign when negative. -/
def renderInt : Int → List Char
  | Int.ofNat n => decimal n
  | Int.negSucc n => '-' :: decimal (n + 1)

/-- Modelled from the spec: part of the absent `json.Marshal`: a lower-case
hexadecimal digit. -/
def hexDigit (n : Nat) : Char :=
  if n < 10 then Char.ofNat (48 + n) else Char.ofNat (87 + n)

/-- Modelled from the spec: part of the absent `json.Marshal`: how a character
stands inside a JSON string: the quote
and the backslash are escaped with a backslash, control characters are written
as `\u00XX`, every other character stands for itself. -/
def escapeChar (c : Char) : List Char :=
  if c = '\"' then ['\\', '\"']
  else if c = '\\' then ['\\', '\\']
  else if c.toNat < 32 then ['\\', 'u', '0', '0', hexDigit (c.toNat / 16), hexDigit (c.toNat % 16)]
  else [c]

/-- Modelled from the spec: part of the absent `json.Marshal`: the characters of a
string between its two quotes. -/
def escape : List Char → List Char
  | [] => []
  | c :: cs => escapeChar c ++ escape cs

/-- Modelled from the spec: part of the absent `json.Marshal`: a JSON string. -/
def renderString (s : String) : List Char :=
  '\"' :: (escape s.data ++ ['\"'])

/-- Modelled from the spec: part of the absent `json.Marshal`: a JSON value. -/
def renderValue : JValue → List Char
  | .num n => renderInt n
  | .str s => renderString s

/-- Modelled from the spec: part of the absent `json.Marshal`: one member
`"name":value` of a JSON object. -/
def renderMember (m : String × JValue) : List Char :=
  renderString m.1 ++ ':' :: renderValue m.2

/-- Modelled from the spec: part of the absent `json.Marshal`: the members of a
non-empty JSON object, separated by commas, followed by the closing brace. -/
def renderMembers : String × JValue → List (String × JValue) → List Char
  | m, [] => renderMember m ++ [Char.ofNat 125]
  | m, m2 :: ms => renderMember m ++ ',' :: renderMembers m2 ms

/-- Modelled from the spec: part of the absent `json.Marshal`: a JSON object. -/
def renderObject : List (String × JValue) → List Char
  | [] => [Char.ofNat 123, Char.ofNat 125]
  | m :: ms => Char.ofNat 123 :: renderMembers m ms

/-- Modelled from the spec: the field tags of `specs.State`, whose declaration is
not part of `hook.go`: the members of the lifecycle state payload, under the
field names `pid`, `bundle` and `id` of section 6. -/
def stateMembers (s : State) : List (String × JValue) :=
  [("pid", .num s.Pid), ("bundle", .str s.Bundle), ("id", .str s.ID)]

/-- Modelled from the spec: `json.Marshal` applied to a `specs.State`, a library
function that is not part of `hook.go`; it returns the payload and an error,
which is nil for such a value. -/
def jsonMarshal (s : State) : Except GoError String :=
  .ok (String.mk (renderObject (stateMembers s)))

/-- Modelled from the spec: part of the absent deserialiser: value of a
hexadecimal digit. -/
def hexVal (c : Char) : Option Nat :=
  if 48 ≤ c.toNat ∧ c.toNat ≤ 57 then some (c.toNat - 48)
  else if 97 ≤ c.toNat ∧ c.toNat ≤ 102 then some (c.toNat - 87)
  else if 65 ≤ c.toNat ∧ c.toNat ≤ 70 then some (c.toNat - 55)
  else none

/-- Modelled from the spec: part of the absent deserialiser: the character written
with the four hexadecimal digits `a b c d`. -/
def hex4 (a b c d : Char) : Option Char :=
  match hexVal a, hexVal b, hexVal c, hexVal d with
  | some x, some y, some z, some w => some (Char.ofNat (((x * 16 + y) * 16 + z) * 16 + w))
  | _, _, _, _ => none

/-- Modelled from the spec: part of the absent deserialiser: puts a character in
front of a string that was read. -/
def consRead (c : Char) : Option (List Char × List Char) → Option (List Char × List Char)
  | some (s, rest) => some (c :: s, rest)
  | none => none

/-- Modelled from the spec: part of the absent deserialiser: reads a JSON string
whose opening quote has been consumed: returns its characters and the input after the closing quote. -/
def readString : List Char → Option (List Char × List Char)
  | [] => none
  | c :: rest =>
    if c = '\"' then some ([], rest)
    else if c = '\\' then
      match rest with
      | [] => none
      | e :: rest2 =>
        if e = '\"' then consRead '\"' (readString rest2)
        else if e = '\\' then consRead '\\' (readString rest2)
        else if e = 'u' then
          match rest2 with
          | a :: b :: x :: d :: rest3 =>
            match hex4 a b x d with
            | some u => consRead u (readString rest3)
            | none => none
          | _ => none
        else none
    else if c.toNat < 32 then none
    else consRead c (readString rest)

/-- Modelled from the spec: part of the absent deserialiser: value of a decimal
digit. -/
def digitVal (c : Char) : Nat := c.toNat - 48

/-- Modelled from the spec: part of the absent deserialiser: reads decimal digits
as long as there are any, adding them to the number `acc` read so far. -/
def readNat : List Char → Nat → Nat × List Char
  | [], acc => (acc, [])
  | c :: cs, acc => if c.isDigit then readNat cs (acc * 10 + digitVal c) else (acc, c :: cs)

/-- Modelled from the spec: part of the absent deserialiser: reads a JSON value, a
string or an integer. -/
def readValue : List Char → Option (JValue × List Char)
  | [] => none
  | c :: rest =>
    if c = '\"' then
      match readString rest with
      | some (s, r) => some (.str (String.mk s), r)
      | none => none
    else if c = '-' then
      match rest with
      | [] => none
      | d :: _ =>
        if d.isDigit then
          let (n, r) := readNat rest 0
          some (.num (-(n : Int)), r)
        else none
    else if c.isDigit then
      let (n, r) := readNat (c :: rest) 0
      some (.num (n : Int), r)
    else none

/-- Modelled from the spec: part of the absent deserialiser: reads one member
`"name":value`. -/
def readMember : List Char → Option ((String × JValue) × List Char)
  | [] => none
  | c :: rest =>
    if c = '\"' then
      match readString rest with
      | some (k, colon :: r) =>
        if colon = ':' then
          match readValue r with
          | some (v, r2) => some ((String.mk k, v), r2)
          | none => none
        else none
      | _ => none
    else none

/-- Modelled from the spec: part of the absent deserialiser: reads the members of
a non-empty object up to its closing brace; `fuel` bounds the number of members. -/
def readMembers : Nat → List Char → Option (List (String × JValue) × List Char)
  | 0, _ => none
  | fuel + 1, input =>
    match readMember input with
    | some (m, sep :: r) =>
      if sep = Char.ofNat 125 then some ([m], r)
      else if sep = ',' then
        match readMembers fuel r with
        | some (ms, r2) => some (m :: ms, r2)
        | none => none
      else none
    | _ => none

/-- Modelled from the spec: part of the absent deserialiser: reads a JSON object
that makes up the whole input. -/
def readObject : List Char → Option (List (String × JValue))
  | [] => none
  | c :: rest =>
    if c = Char.ofNat 123 then
      match rest with
      | [] => none
      | d :: rest2 =>
        if d = Char.ofNat 125 then (if rest2 = [] then some [] else none)
        else
          match readMembers rest.length rest with
          | some (ms, []) => some ms
          | _ => none
    else none

/-- Modelled from the spec: part of the absent deserialiser: the integer stored
under a field name. -/
def fieldInt (ms : List (String × JValue)) (name : String) : Option Int :=
  match ms.lookup name with
  | some (.num n) => some n
  | _ => none

/-- Modelled from the spec: part of the absent deserialiser: the string stored
under a field name. -/
def fieldString (ms : List (String × JValue)) (name : String) : Option String :=
  match ms.lookup name with
  | some (.str s) => some s
  | _ => none

/-- Modelled from the spec: the deserialiser of the payload, which is not part of
`hook.go` (a hook executable runs it): reads the payload back into a
`specs.State` from the fields `pid`, `bundle` and `id`. -/
def jsonUnmarshal (payload : String) : Option State :=
  match readObject payload.data with
  | none => none
  | some ms =>
    match fieldInt ms "pid", fieldString ms "bundle", fieldString ms "id" with
    | some pid, some bundle, some id => some { Pid := pid, Bundle := bundle, ID := id }
    | _, _, _ => none

/-! ## The code of `hook.go` -/

/-- The error built by `fmt.Errorf("%s: stdout: %s, stderr: %s", err, stdout.String(),
stderr.String())` (hook.go lines 52 and 64): each `%s` is replaced by the text of
its argument. -/
def waitFailure (err : OSError) (stdout stderr : String) : GoError :=
  .errorf (err.msg ++ ": stdout: " ++ stdout ++ ", stderr: " ++ stderr)

/-- The command that `runHook` builds (hook.go lines 37-44). -/
def hookCmd (hook : Hook) (stateJSON : String) : Cmd :=
  { Path := hook.Path, Args := hook.Args, Env := hook.Env, Stdin := stateJSON }

/-- The function `runHook` (hook.go lines 24-76).  The result is the returned
error (`none` is nil) and the effects performed, in program order. -/
def runHook (w : Outcome) (hook : Hook) (cid bundlePath : String) :
    Option GoError × List Effect :=
  let state : State := { Pid := w.getpid, Bundle := bundlePath, ID := cid }
  match jsonMarshal state with
  | .error err => (some err, [])
  | .ok stateJSON =>
    let cmd := hookCmd hook stateJSON
    match w.start with
    | some err => (some (.os err), [.start cmd])
    | none =>
      match hook.Timeout with
      | none =>
        match w.wait with
        | some err => (some (waitFailure err w.stdout w.stderr), [.start cmd, .wait])
        | none => (none, [.start cmd, .wait])
      | some timeout =>
        let d := wrapInt64 (timeout * Second)
        if w.timerFirst then
          match w.kill with
          | some err => (some (.os err), [.start cmd, .goWait, .timer d, .kill w.pid SIGKILL])
          | none =>
            (some (.errorf "Hook timeout"), [.start cmd, .goWait, .timer d, .kill w.pid SIGKILL])
        else
          match w.wait with
          | some err =>
            (some (waitFailure err w.stdout w.stderr), [.start cmd, .goWait, .timer d])
          | none => (none, [.start cmd, .goWait, .timer d])

/-- The record logged by `runHooks` (hook.go lines 81-84). -/
def hookErrorRecord (hookType : String) (err : GoError) : LogRecord :=
  { fields := [("hook-type", .str hookType), ("error", .err err)], message := "hook error" }

/-- The loop of `runHooks` over the elements of the slice.  `ws n` holds the
answers of the outside world during the `n`-th call of `runHook` made from here
on, counting from zero. -/
def runHooksLoop (ws : Nat → Outcome) (cid bundlePath hookType : String) :
    List Hook → Option GoError × List PhaseEvent
  | [] => (none, [])
  | hook :: rest =>
    match runHook (ws 0) hook cid bundlePath with
    | (some err, effects) =>
      (some err, [.invoke hook effects, .record (hookErrorRecord hookType err)])
    | (none, effects) =>
      let r := runHooksLoop (fun n => ws (n + 1)) cid bundlePath hookType rest
      (r.1, .invoke hook effects :: r.2)

/-- The function `runHooks` (hook.go lines 78-91). -/
def runHooks (ws : Nat → Outcome) (hooks : HookSlice) (cid bundlePath hookType : String) :
    Option GoError × List PhaseEvent :=
  runHooksLoop ws cid bundlePath hookType hooks.elems

/-- The function `preStartHooks` (hook.go lines 93-100). -/
def preStartHooks (ws : Nat → Outcome) (spec : CompatOCISpec) (cid bundlePath : String) :
    Option GoError × List PhaseEvent :=
  match spec.Hooks with
  | none => (none, [])
  | some hooks => runHooks ws hooks.Prestart cid bundlePath "pre-start"

/-- The function `postStartHooks` (hook.go lines 102-109). -/
def postStartHooks (ws : Nat → Outcome) (spec : CompatOCISpec) (cid bundlePath : String) :
    Option GoError × List PhaseEvent :=
  match spec.Hooks with
  | none => (none, [])
  | some hooks => runHooks ws hooks.Poststart cid bundlePath "post-start"

/-- The function `postStopHooks` (hook.go lines 111-118). -/
def postStopHooks (ws : Nat → Outcome) (spec : CompatOCISpec) (cid bundlePath : String) :
    Option GoError × List PhaseEvent :=
  match spec.Hooks with
  | none => (none, [])
  | some hooks => runHooks ws hooks.Poststop cid bundlePath "post-stop"

/-! ## Reading a trace -/

/-- The hooks on which `runHook` was called, in the order of the calls. -/
def invocations : List PhaseEvent → List Hook
  | [] => []
  | .invoke hook _ :: evs => hook :: invocations evs
  | .record _ :: evs => invocations evs

/-- The records handed to the logger, in order. -/
def records : List PhaseEvent → List LogRecord
  | [] => []
  | .invoke _ _ :: evs => records evs
  | .record r :: evs => r :: records evs

/-- All effects on the outside world, in order. -/
def effectsOf : List PhaseEvent → List Effect
  | [] => []
  | .invoke _ effects :: evs => effects ++ effectsOf evs
  | .record _ :: evs => effectsOf evs

/-- Whether an effect is a call of `cmd.Start()`: a process spawn. -/
def Effect.isStart : Effect → Bool
  | .start _ => true
  | _ => false

/-- Whether an effect is a call of `syscall.Kill`. -/
def Effect.isKill : Effect → Bool
  | .kill _ _ => true
  | _ => false

/-- Whether an effect is a call of `cmd.Wait()` on the calling path. -/
def Effect.isWait : Effect → Bool
  | .wait => true
  | _ => false

/-- Whether an effect is a call of `time.After`. -/
def Effect.isTimer : Effect → Bool
  | .timer _ => true
  | _ => false

/-- Whether an effect starts the goroutine that waits in the background. -/
def Effect.isGoWait : Effect → Bool
  | .goWait => true
  | _ => false

/-- The events of calling `runHook` on every hook of a list, one after the other;
`ws n` holds the answers of the outside world during the `n`-th call. -/
def invokeAll (ws : Nat → Outcome) (cid bundlePath : String) : List Hook → List PhaseEvent
  | [] => []
  | hook :: rest =>
    .invoke hook (runHook (ws 0) hook cid bundlePath).2 ::
      invokeAll (fun n => ws (n + 1)) cid bundlePath rest

/-! ## Concrete inputs used by the witnesses -/

/-- An outside world in which everything goes well: the process starts and exits
with status zero before any timer. -/
def quietOutcome : Outcome :=
  { getpid := 4242, start := none, pid := 77, wait := none, stdout := "", stderr := "",
    timerFirst := false, kill := none }

/-- A hook without a timeout. -/
def hookA : Hook := { Path := "/bin/a", Args := ["a"], Env := [], Timeout := none }

/-- A hook with a timeout of one second. -/
def hookB : Hook := { Path := "/bin/b", Args := ["b"], Env := ["K=V"], Timeout := some 1 }

/-- A third hook, without a timeout. -/
def hookC : Hook := { Path := "/bin/c", Args := ["c"], Env := [], Timeout := none }

/-- The process prints `hello` and `boom`, the timer case is selected, the kill is
delivered, and the wait in the goroutine ends with `signal: killed`. -/
def timedOutOutcome : Outcome :=
  { getpid := 4242, start := none, pid := 78, wait := some ⟨"signal: killed"⟩,
    stdout := "hello", stderr := "boom", timerFirst := true, kill := none }

/-- The process exits with status one after printing `out` and `boom`; the `done`
case is selected. -/
def exitOneOutcome : Outcome :=
  { getpid := 4242, start := none, pid := 79, wait := some ⟨"exit status 1"⟩,
    stdout := "out", stderr := "boom", timerFirst := false, kill := none }

/-- The process cannot be started. -/
def noSpawnOutcome : Outcome :=
  { getpid := 4242, start := some ⟨"fork/exec /bin/b: no such file or directory"⟩, pid := 0,
    wait := none, stdout := "", stderr := "", timerFirst := false, kill := none }

/-- The timer case is selected and the kill cannot be delivered. -/
def killFailsOutcome : Outcome :=
  { getpid := 4242, start := none, pid := 80, wait := none, stdout := "out", stderr := "boom",
    timerFirst := true, kill := some ⟨"no such process"⟩ }

/-- All goes well except during the second call of `runHook`, where the process
exits with status one. -/
def secondExitsOne : Nat → Outcome :=
  fun n => if n = 1 then exitOneOutcome else quietOutcome

/-- All goes well except during the second call of `runHook`, where the timer
case is selected. -/
def secondTimesOut : Nat → Outcome :=
  fun n => if n = 1 then timedOutOutcome else quietOutcome

/-- All goes well during every call of `runHook`. -/
def allQuiet : Nat → Outcome :=
  fun _ => quietOutcome

/-! ## One hook: `runHook` -/

/-- Modelled from the spec: the payload that `jsonMarshal`, the model of the
absent `json.Marshal`, returns for a process id, a bundle path and a container
id. -/
def statePayload (pid : Int) (bundlePath cid : String) : String :=
  String.mk (renderObject (stateMembers { Pid := pid, Bundle := bundlePath, ID := cid }))

theorem runHook_start_failed (w : Outcome) (hook : Hook) (cid bundlePath : String) (e : OSError)
    (hs : w.start = some e) :
    runHook w hook cid bundlePath =
      (some (.os e), [.start (hookCmd hook (statePayload w.getpid bundlePath cid))]) := by
  simp [runHook, jsonMarshal, statePayload, hs]

theorem runHook_no_timeout (w : Outcome) (hook : Hook) (cid bundlePath : String)
    (hs : w.start = none) (hT : hook.Timeout = none) :
    runHook w hook cid bundlePath =
      ((w.wait.map fun e => waitFailure e w.stdout w.stderr),
        [.start (hookCmd hook (statePayload w.getpid bundlePath cid)), .wait]) := by
  cases hw : w.wait <;> simp [runHook, jsonMarshal, statePayload, hs, hT, hw]

theorem runHook_done_first (w : Outcome) (hook : Hook) (cid bundlePath : String) (t : Int)
    (hs : w.start = none) (hT : hook.Timeout = some t) (hsel : w.timerFirst = false) :
    runHook w hook cid bundlePath =
      ((w.wait.map fun e => waitFailure e w.stdout w.stderr),
        [.start (hookCmd hook (statePayload w.getpid bundlePath cid)), .goWait,
          .timer (wrapInt64 (t * Second))]) := by
  cases hw : w.wait <;> simp [runHook, jsonMarshal, statePayload, hs, hT, hsel, hw]

theorem runHook_timer_first (w : Outcome) (hook : Hook) (cid bundlePath : String) (t : Int)
    (hs : w.start = none) (hT : hook.Timeout = some t) (hsel : w.timerFirst = true) :
    runHook w hook cid bundlePath =
      (some (match w.kill with
          | some e => .os e
          | none => .errorf "Hook timeout"),
        [.start (hookCmd hook (statePayload w.getpid bundlePath cid)), .goWait,
          .timer (wrapInt64 (t * Second)), .kill w.pid SIGKILL]) := by
  cases hk : w.kill <;> simp [runHook, jsonMarshal, statePayload, hs, hT, hsel, hk]

/-- C8: when the process of a hook (with or without a timeout) fails to start
with error `e`, `runHook` returns `e` itself, and its only effect is the call of
`cmd.Start()`: no wait on the calling path, no waiting goroutine, no timer and
no kill signal. -/
theorem runHook_spawn_failure (w : Outcome) (hook : Hook) (cid bundlePath : String)
    (e : OSError) (hs : w.start = some e) :
    (runHook w hook cid bundlePath).1 = some (.os e) ∧
    (∃ cmd, (runHook w hook cid bundlePath).2 = [.start cmd]) ∧
    (∀ x ∈ (runHook w hook cid bundlePath).2,
      x.isWait = false ∧ x.isGoWait = false ∧ x.isTimer = false ∧ x.isKill = false) := by
  rw [runHook_start_failed w hook cid bundlePath e hs]
  refine ⟨rfl, ⟨_, rfl⟩, ?_⟩
  intro x hx
  simp only [List.mem_singleton] at hx
  subst hx
  simp [Effect.isWait, Effect.isGoWait, Effect.isTimer, Effect.isKill]

/-- Witness of C8 on a hook with a timeout whose executable is missing. -/
theorem runHook_spawn_failure_witness :
    (runHook noSpawnOutcome hookB "c1" "/run/b").1 =
        some (.os ⟨"fork/exec /bin/b: no such file or directory"⟩) ∧
    (∃ cmd, (runHook noSpawnOutcome hookB "c1" "/run/b").2 = [.start cmd]) ∧
    (∀ x ∈ (runHook noSpawnOutcome hookB "c1" "/run/b").2,
      x.isWait = false ∧ x.isGoWait = false ∧ x.isTimer = false ∧ x.isKill = false) :=
  runHook_spawn_failure noSpawnOutcome hookB "c1" "/run/b" _ rfl

/-- C3: for a hook with a timeout whose process started, when the `select`
statement picks the timer case, `runHook` calls `syscall.Kill` exactly once, with
the pid of the started process and `SIGKILL`, and that call is its last effect;
it makes no call of `cmd.Wait()` on the calling path; it never returns nil; it
returns the error of the kill, unchanged, exactly when the kill failed, and the
error `Hook timeout` exactly when the kill was delivered. -/
theorem runHook_timer_case (w : Outcome) (hook : Hook) (cid bundlePath : String) (t : Int)
    (hT : hook.Timeout = some t) (hs : w.start = none) (hsel : w.timerFirst = true) :
    (runHook w hook cid bundlePath).2.filter Effect.isKill = [.kill w.pid SIGKILL] ∧
    (runHook w hook cid bundlePath).2.getLast? = some (.kill w.pid SIGKILL) ∧
    (∀ x ∈ (runHook w hook cid bundlePath).2, x.isWait = false) ∧
    (runHook w hook cid bundlePath).1 ≠ none ∧
    (∀ k, (runHook w hook cid bundlePath).1 = some (.os k) ↔ w.kill = some k) ∧
    ((runHook w hook cid bundlePath).1 = some (.errorf "Hook timeout") ↔ w.kill = none) := by
  rw [runHook_timer_first w hook cid bundlePath t hs hT hsel]
  refine ⟨by simp [Effect.isKill], by simp, ?_, by simp, ?_, ?_⟩
  · intro x hx
    simp only [List.mem_cons, List.mem_singleton, List.not_mem_nil, or_false] at hx
    rcases hx with rfl | rfl | rfl | rfl <;> rfl
  · intro k
    cases hk : w.kill <;> simp
  · cases hk : w.kill <;> simp

/-- Witness of C3: a hook with a one second timeout, the timer case selected and
the kill delivered. -/
theorem runHook_timer_case_witness :
    (runHook timedOutOutcome hookB "c1" "/run/b").2.filter Effect.isKill = [.kill 78 SIGKILL] ∧
    (runHook timedOutOutcome hookB "c1" "/run/b").2.getLast? = some (.kill 78 SIGKILL) ∧
    (∀ x ∈ (runHook timedOutOutcome hookB "c1" "/run/b").2, x.isWait = false) ∧
    (runHook timedOutOutcome hookB "c1" "/run/b").1 ≠ none ∧
    (∀ k, (runHook timedOutOutcome hookB "c1" "/run/b").1 = some (.os k) ↔
      timedOutOutcome.kill = some k) ∧
    ((runHook timedOutOutcome hookB "c1" "/run/b").1 = some (.errorf "Hook timeout") ↔
      timedOutOutcome.kill = none) :=
  runHook_timer_case timedOutOutcome hookB "c1" "/run/b" 1 rfl rfl rfl

/-- C4: for a hook with a timeout whose process started, when the `select`
statement picks the `done` case, `runHook` returns what it returns for the same
hook without a timeout under the same answers of the outside world (same wait
result, same captured output), and it sends no kill signal. -/
theorem runHook_done_case_eq_no_timeout (w : Outcome) (hook : Hook) (cid bundlePath : String)
    (t : Int) (hT : hook.Timeout = some t) (hs : w.start = none) (hsel : w.timerFirst = false) :
    (runHook w hook cid bundlePath).1 =
      (runHook w { hook with Timeout := none } cid bundlePath).1 ∧
    (∀ x ∈ (runHook w hook cid bundlePath).2, x.isKill = false) := by
  rw [runHook_done_first w hook cid bundlePath t hs hT hsel,
    runHook_no_timeout w { hook with Timeout := none } cid bundlePath hs rfl]
  refine ⟨rfl, ?_⟩
  intro x hx
  simp only [List.mem_cons, List.mem_singleton, List.not_mem_nil, or_false] at hx
  rcases hx with rfl | rfl | rfl <;> rfl

/-- Witness of C4: a hook with a one second timeout whose process exits with
status one before the timer. -/
theorem runHook_done_case_eq_no_timeout_witness :
    (runHook exitOneOutcome hookB "c1" "/run/b").1 =
      (runHook exitOneOutcome { hookB with Timeout := none } "c1" "/run/b").1 ∧
    (∀ x ∈ (runHook exitOneOutcome hookB "c1" "/run/b").2, x.isKill = false) :=
  runHook_done_case_eq_no_timeout exitOneOutcome hookB "c1" "/run/b" 1 rfl rfl rfl

/-- Counterexample to C5 as stated: the process of `hookB` started and its wait
(made by the goroutine) ended with the error `signal: killed`, yet `runHook`,
having picked the timer case, reports `Hook timeout` and not the wait error with
the captured output; and where the wait ends without error while the timer case
is picked and the kill fails, `runHook` does not return nil. -/
theorem runHook_wait_error_unseen :
    timedOutOutcome.start = none ∧
    timedOutOutcome.wait = some ⟨"signal: killed"⟩ ∧
    timedOutOutcome.stdout = "hello" ∧ timedOutOutcome.stderr = "boom" ∧
    (runHook timedOutOutcome hookB "c1" "/run/b").1 = some (.errorf "Hook timeout") ∧
    (runHook timedOutOutcome hookB "c1" "/run/b").1 ≠
      some (.errorf "signal: killed: stdout: hello, stderr: boom") ∧
    killFailsOutcome.start = none ∧ killFailsOutcome.wait = none ∧
    (runHook killFailsOutcome hookB "c1" "/run/b").1 = some (.os ⟨"no such process"⟩) := by
  decide

/-- C5, amended: for a hook whose process started and whose wait result reaches
`runHook` (no timeout is configured, or the `select` statement picks the `done`
case): when the wait returned the error `e`, with captured stdout text `o` and
stderr text `s`, `runHook` fails with the detail `<e>: stdout: <o>, stderr: <s>`,
in which the text of `e`, `o` and `s` each appear as one contiguous piece; when
the wait returned no error, `runHook` returns nil. -/
theorem runHook_wait_result (w : Outcome) (hook : Hook) (cid bundlePath : String)
    (hs : w.start = none) (hobs : hook.Timeout = none ∨ w.timerFirst = false) :
    (∀ e, w.wait = some e →
      (runHook w hook cid bundlePath).1 =
          some (.errorf (e.msg ++ ": stdout: " ++ w.stdout ++ ", stderr: " ++ w.stderr)) ∧
      ∃ err, (runHook w hook cid bundlePath).1 = some err ∧
        e.msg.data <:+: err.Error.data ∧ w.stdout.data <:+: err.Error.data ∧
        w.stderr.data <:+: err.Error.data) ∧
    (w.wait = none → (runHook w hook cid bundlePath).1 = none) := by
  have key : (runHook w hook cid bundlePath).1 =
      w.wait.map fun e => waitFailure e w.stdout w.stderr := by
    cases hT : hook.Timeout with
    | none => rw [runHook_no_timeout w hook cid bundlePath hs hT]
    | some t =>
      have hsel : w.timerFirst = false := by
        rcases hobs with h | h
        · rw [hT] at h; cases h
        · exact h
      rw [runHook_done_first w hook cid bundlePath t hs hT hsel]
  rw [key]
  constructor
  · intro e he
    rw [he]
    refine ⟨rfl, _, rfl, ?_, ?_, ?_⟩
    · exact ⟨[], (": stdout: " ++ w.stdout ++ ", stderr: " ++ w.stderr).data, by
        simp [waitFailure, GoError.Error, String.data_append]⟩
    · exact ⟨(e.msg ++ ": stdout: ").data, (", stderr: " ++ w.stderr).data, by
        simp [waitFailure, GoError.Error, String.data_append]⟩
    · exact ⟨(e.msg ++ ": stdout: " ++ w.stdout ++ ", stderr: ").data, [], by
        simp [waitFailure, GoError.Error, String.data_append]⟩
  · intro hw
    rw [hw]
    rfl

/-- Witness of the amended C5: a hook with a timeout whose process exits with
status one before the timer, having printed `out` and `boom`. -/
theorem runHook_wait_result_witness :
    (∀ e, exitOneOutcome.wait = some e →
      (runHook exitOneOutcome hookB "c1" "/run/b").1 =
          some (.errorf (e.msg ++ ": stdout: " ++ exitOneOutcome.stdout ++ ", stderr: " ++
            exitOneOutcome.stderr)) ∧
      ∃ err, (runHook exitOneOutcome hookB "c1" "/run/b").1 = some err ∧
        e.msg.data <:+: err.Error.data ∧ exitOneOutcome.stdout.data <:+: err.Error.data ∧
        exitOneOutcome.stderr.data <:+: err.Error.data) ∧
    (exitOneOutcome.wait = none → (runHook exitOneOutcome hookB "c1" "/run/b").1 = none) :=
  runHook_wait_result exitOneOutcome hookB "c1" "/run/b" rfl (Or.inr rfl)

/-! ## One phase: `runHooks` -/

theorem invocations_invokeAll (cid bundlePath : String) (hooks : List Hook) :
    ∀ ws : Nat → Outcome, invocations (invokeAll ws cid bundlePath hooks) = hooks := by
  induction hooks with
  | nil => intro ws; rfl
  | cons hook rest ih => intro ws; simp [invokeAll, invocations, ih]

theorem records_invokeAll (cid bundlePath : String) (hooks : List Hook) :
    ∀ ws : Nat → Outcome, records (invokeAll ws cid bundlePath hooks) = [] := by
  induction hooks with
  | nil => intro ws; rfl
  | cons hook rest ih => intro ws; simp [invokeAll, records, ih]

theorem invocations_append_record (evs : List PhaseEvent) (r : LogRecord) :
    invocations (evs ++ [.record r]) = invocations evs := by
  induction evs with
  | nil => rfl
  | cons ev rest ih => cases ev <;> simp [invocations, ih]

theorem records_append_record (evs : List PhaseEvent) (r : LogRecord) :
    records (evs ++ [.record r]) = records evs ++ [r] := by
  induction evs with
  | nil => rfl
  | cons ev rest ih => cases ev <;> simp [records, ih]

/-- When every call of `runHook` succeeds the loop calls it on every hook and
returns nil. -/
theorem runHooksLoop_all_ok (cid bundlePath hookType : String) (hooks : List Hook) :
    ∀ ws : Nat → Outcome,
      (∀ i hook, hooks[i]? = some hook → (runHook (ws i) hook cid bundlePath).1 = none) →
      runHooksLoop ws cid bundlePath hookType hooks = (none, invokeAll ws cid bundlePath hooks) := by
  induction hooks with
  | nil => intro ws _; rfl
  | cons hook rest ih =>
    intro ws hall
    have h0 : (runHook (ws 0) hook cid bundlePath).1 = none := hall 0 hook (by simp)
    have hrest := ih (fun n => ws (n + 1)) (fun i h hi => hall (i + 1) h (by simpa using hi))
    rcases hr : runHook (ws 0) hook cid bundlePath with ⟨res, effects⟩
    rw [hr] at h0
    simp only at h0
    subst h0
    simp [runHooksLoop, invokeAll, hr, hrest]

/-- When the call of `runHook` on the hook at index `k` is the first to fail, the
loop stops there: it returns that error, has called `runHook` on the hooks up to
index `k` and has logged one record. -/
theorem runHooksLoop_first_failure (cid bundlePath hookType : String) (hooks : List Hook) :
    ∀ (ws : Nat → Outcome) (k : Nat) (hook : Hook) (err : GoError),
      hooks[k]? = some hook →
      (∀ i, i < k → ∀ h, hooks[i]? = some h → (runHook (ws i) h cid bundlePath).1 = none) →
      (runHook (ws k) hook cid bundlePath).1 = some err →
      runHooksLoop ws cid bundlePath hookType hooks =
        (some err, invokeAll ws cid bundlePath (hooks.take (k + 1)) ++
          [.record (hookErrorRecord hookType err)]) := by
  induction hooks with
  | nil => intro ws k hook err hk; simp at hk
  | cons first rest ih =>
    intro ws k hook err hk hbefore hfail
    cases k with
    | zero =>
      simp only [List.getElem?_cons_zero, Option.some.injEq] at hk
      subst hk
      rcases hr : runHook (ws 0) first cid bundlePath with ⟨res, effects⟩
      rw [hr] at hfail
      simp only at hfail
      subst hfail
      simp [runHooksLoop, invokeAll, hr]
    | succ k =>
      have h0 : (runHook (ws 0) first cid bundlePath).1 = none :=
        hbefore 0 (Nat.succ_pos k) first (by simp)
      have hrest := ih (fun n => ws (n + 1)) k hook err (by simpa using hk)
        (fun i hi h hh => hbefore (i + 1) (Nat.succ_lt_succ hi) h (by simpa using hh)) hfail
      rcases hr : runHook (ws 0) first cid bundlePath with ⟨res, effects⟩
      rw [hr] at h0
      simp only at h0
      subst h0
      simp [runHooksLoop, invokeAll, hr, hrest]

/-- Either every call of `runHook` along the list succeeds, or there is a first
one that fails. -/
theorem all_ok_or_first_failure (cid bundlePath : String) (hooks : List Hook) :
    ∀ ws : Nat → Outcome,
      (∀ i hook, hooks[i]? = some hook → (runHook (ws i) hook cid bundlePath).1 = none) ∨
      ∃ k hook err, hooks[k]? = some hook ∧
        (∀ i, i < k → ∀ h, hooks[i]? = some h → (runHook (ws i) h cid bundlePath).1 = none) ∧
        (runHook (ws k) hook cid bundlePath).1 = some err := by
  induction hooks with
  | nil => intro ws; left; intro i hook hi; simp at hi
  | cons first rest ih =>
    intro ws
    cases h0 : (runHook (ws 0) first cid bundlePath).1 with
    | some err =>
      right
      exact ⟨0, first, err, by simp, fun i hi => absurd hi (Nat.not_lt_zero i), h0⟩
    | none =>
      rcases ih (fun n => ws (n + 1)) with hall | ⟨k, hook, err, hk, hbefore, hfail⟩
      · left
        intro i hook hi
        cases i with
        | zero =>
          simp only [List.getElem?_cons_zero, Option.some.injEq] at hi
          subst hi
          exact h0
        | succ i => exact hall i hook (by simpa using hi)
      · right
        refine ⟨k + 1, hook, err, by simpa using hk, ?_, hfail⟩
        intro i hi h hh
        cases i with
        | zero =>
          simp only [List.getElem?_cons_zero, Option.some.injEq] at hh
          subst hh
          exact h0
        | succ i => exact hbefore i (Nat.lt_of_succ_lt_succ hi) h (by simpa using hh)

theorem effectsOf_append_record (evs : List PhaseEvent) (r : LogRecord) :
    effectsOf (evs ++ [.record r]) = effectsOf evs := by
  induction evs with
  | nil => rfl
  | cons ev rest ih => cases ev <;> simp [effectsOf, ih]

/-- C1: when at least one call of `runHook` along the hook list fails, there is a
first failing hook, at index `k`; `runHooks` returns exactly the error that
`runHook` returned for it, and the hooks on which `runHook` was called are the
first `k + 1` hooks of the list, each once and in list order: all hooks before
the failing one, the failing one, and none after it. -/
theorem runHooks_first_failure (ws : Nat → Outcome) (hooks : HookSlice)
    (cid bundlePath hookType : String)
    (hfail : ∃ i hook, hooks.elems[i]? = some hook ∧
      (runHook (ws i) hook cid bundlePath).1 ≠ none) :
    ∃ k hook err, hooks.elems[k]? = some hook ∧
      (∀ i, i < k → ∀ h, hooks.elems[i]? = some h →
        (runHook (ws i) h cid bundlePath).1 = none) ∧
      (runHook (ws k) hook cid bundlePath).1 = some err ∧
      (runHooks ws hooks cid bundlePath hookType).1 = some err ∧
      invocations (runHooks ws hooks cid bundlePath hookType).2 = hooks.elems.take (k + 1) := by
  rcases all_ok_or_first_failure cid bundlePath hooks.elems ws with
    hall | ⟨k, hook, err, hk, hbefore, hk_fail⟩
  · rcases hfail with ⟨i, hook, hi, hne⟩
    exact absurd (hall i hook hi) hne
  · refine ⟨k, hook, err, hk, hbefore, hk_fail, ?_, ?_⟩
    · rw [runHooks, runHooksLoop_first_failure cid bundlePath hookType hooks.elems ws k hook err
        hk hbefore hk_fail]
    · rw [runHooks, runHooksLoop_first_failure cid bundlePath hookType hooks.elems ws k hook err
        hk hbefore hk_fail]
      simp only
      rw [invocations_append_record, invocations_invokeAll]

/-- Witness of C1: of the hooks `A, B, C` the second exits with status one. -/
theorem runHooks_first_failure_witness :
    (∃ i hook, (HookSlice.elems (some [hookA, hookB, hookC]))[i]? = some hook ∧
      (runHook (secondExitsOne i) hook "c1" "/run/b").1 ≠ none) ∧
    ∃ k hook err, (HookSlice.elems (some [hookA, hookB, hookC]))[k]? = some hook ∧
      (∀ i, i < k → ∀ h, (HookSlice.elems (some [hookA, hookB, hookC]))[i]? = some h →
        (runHook (secondExitsOne i) h "c1" "/run/b").1 = none) ∧
      (runHook (secondExitsOne k) hook "c1" "/run/b").1 = some err ∧
      (runHooks secondExitsOne (some [hookA, hookB, hookC]) "c1" "/run/b" "pre-start").1
        = some err ∧
      invocations (runHooks secondExitsOne (some [hookA, hookB, hookC]) "c1" "/run/b"
        "pre-start").2 = (HookSlice.elems (some [hookA, hookB, hookC])).take (k + 1) :=
  ⟨⟨1, hookB, by decide, by decide⟩,
    runHooks_first_failure secondExitsOne (some [hookA, hookB, hookC]) "c1" "/run/b" "pre-start"
      ⟨1, hookB, by decide, by decide⟩⟩

/-- C2: when every call of `runHook` along the hook list succeeds, `runHooks`
returns nil and the hooks on which it called `runHook` are exactly the hooks of
the list, each once and in list order; for a list without elements the trace is
empty and no effect is a process start; this holds in particular for the nil slice and
for the empty slice. -/
theorem runHooks_all_succeed (ws : Nat → Outcome) (hooks : HookSlice)
    (cid bundlePath hookType : String)
    (hall : ∀ i hook, hooks.elems[i]? = some hook →
      (runHook (ws i) hook cid bundlePath).1 = none) :
    (runHooks ws hooks cid bundlePath hookType).1 = none ∧
    invocations (runHooks ws hooks cid bundlePath hookType).2 = hooks.elems ∧
    (hooks.elems.length = 0 → (runHooks ws hooks cid bundlePath hookType).2 = [] ∧
      ∀ x ∈ effectsOf (runHooks ws hooks cid bundlePath hookType).2, x.isStart = false) ∧
    runHooks ws none cid bundlePath hookType = (none, []) ∧
    runHooks ws (some []) cid bundlePath hookType = (none, []) := by
  rw [runHooks, runHooksLoop_all_ok cid bundlePath hookType hooks.elems ws hall]
  refine ⟨rfl, invocations_invokeAll cid bundlePath hooks.elems ws, ?_, rfl, rfl⟩
  intro hlen
  rw [List.length_eq_zero] at hlen
  rw [hlen]
  exact ⟨rfl, fun x hx => by simp [invokeAll, effectsOf] at hx⟩

/-- Witness of C2: the hooks `A, B, C` all succeed. -/
theorem runHooks_all_succeed_witness :
    (runHooks allQuiet (some [hookA, hookB, hookC]) "c1" "/run/b" "post-stop").1 = none ∧
    invocations (runHooks allQuiet (some [hookA, hookB, hookC]) "c1" "/run/b" "post-stop").2 =
      HookSlice.elems (some [hookA, hookB, hookC]) ∧
    ((HookSlice.elems (some [hookA, hookB, hookC])).length = 0 →
      (runHooks allQuiet (some [hookA, hookB, hookC]) "c1" "/run/b" "post-stop").2 = [] ∧
      ∀ x ∈ effectsOf (runHooks allQuiet (some [hookA, hookB, hookC]) "c1" "/run/b"
        "post-stop").2, x.isStart = false) ∧
    runHooks allQuiet none "c1" "/run/b" "post-stop" = (none, []) ∧
    runHooks allQuiet (some []) "c1" "/run/b" "post-stop" = (none, []) :=
  runHooks_all_succeed allQuiet (some [hookA, hookB, hookC]) "c1" "/run/b" "post-stop" (by
    intro i hook hi
    match i, hi with
    | 0, hi => cases hi; decide
    | 1, hi => cases hi; decide
    | 2, hi => cases hi; decide
    | n + 3, hi => simp [HookSlice.elems] at hi)

/-- C9: `runHooks` hands a record to the logger if and only if it returns an
error; it hands over at most one record; a run that returns nil hands over none;
and the record of a failing run carries the phase name passed in under
`hook-type` and the very error that `runHooks` returns under `error`. -/
theorem runHooks_failure_record (ws : Nat → Outcome) (hooks : HookSlice)
    (cid bundlePath hookType : String) :
    (records (runHooks ws hooks cid bundlePath hookType).2 ≠ [] ↔
      (runHooks ws hooks cid bundlePath hookType).1 ≠ none) ∧
    (records (runHooks ws hooks cid bundlePath hookType).2).length ≤ 1 ∧
    ((runHooks ws hooks cid bundlePath hookType).1 = none →
      records (runHooks ws hooks cid bundlePath hookType).2 = []) ∧
    (∀ err, (runHooks ws hooks cid bundlePath hookType).1 = some err →
      records (runHooks ws hooks cid bundlePath hookType).2 =
        [{ fields := [("hook-type", .str hookType), ("error", .err err)],
           message := "hook error" }]) := by
  rcases all_ok_or_first_failure cid bundlePath hooks.elems ws with
    hall | ⟨k, hook, err, hk, hbefore, hk_fail⟩
  · rw [runHooks, runHooksLoop_all_ok cid bundlePath hookType hooks.elems ws hall]
    simp [records_invokeAll]
  · rw [runHooks, runHooksLoop_first_failure cid bundlePath hookType hooks.elems ws k hook err
      hk hbefore hk_fail]
    simp only [records_append_record, records_invokeAll]
    simp [hookErrorRecord]

/-- The phase name passed to `runHooks` changes neither the returned error nor
the calls of `runHook` nor their effects. -/
theorem runHooks_label_irrelevant (ws : Nat → Outcome) (hooks : HookSlice)
    (cid bundlePath label₁ label₂ : String) :
    (runHooks ws hooks cid bundlePath label₁).1 = (runHooks ws hooks cid bundlePath label₂).1 ∧
    invocations (runHooks ws hooks cid bundlePath label₁).2 =
      invocations (runHooks ws hooks cid bundlePath label₂).2 ∧
    effectsOf (runHooks ws hooks cid bundlePath label₁).2 =
      effectsOf (runHooks ws hooks cid bundlePath label₂).2 := by
  rcases all_ok_or_first_failure cid bundlePath hooks.elems ws with
    hall | ⟨k, hook, err, hk, hbefore, hk_fail⟩
  · simp only [runHooks, runHooksLoop_all_ok cid bundlePath _ hooks.elems ws hall, and_self]
  · simp only [runHooks, runHooksLoop_first_failure cid bundlePath _ hooks.elems ws k hook err
      hk hbefore hk_fail, invocations_append_record, effectsOf_append_record, and_self]

/-! ## The three entry points -/

/-- C7: each of `preStartHooks`, `postStartHooks` and `postStopHooks` returns nil
with an empty trace (no call of `runHook`, no record) when the specification has
no hooks section; otherwise its result and trace are those of `runHooks` on the
list of its own phase with the label `pre-start`, `post-start` or `post-stop`;
and the label passed to `runHooks` changes neither the returned error nor the
hooks on which `runHook` is called nor their effects. -/
theorem entry_points_run_their_phase (ws : Nat → Outcome) (hooks : Hooks)
    (cid bundlePath : String) :
    preStartHooks ws { Hooks := none } cid bundlePath = (none, []) ∧
    postStartHooks ws { Hooks := none } cid bundlePath = (none, []) ∧
    postStopHooks ws { Hooks := none } cid bundlePath = (none, []) ∧
    preStartHooks ws { Hooks := some hooks } cid bundlePath =
      runHooks ws hooks.Prestart cid bundlePath "pre-start" ∧
    postStartHooks ws { Hooks := some hooks } cid bundlePath =
      runHooks ws hooks.Poststart cid bundlePath "post-start" ∧
    postStopHooks ws { Hooks := some hooks } cid bundlePath =
      runHooks ws hooks.Poststop cid bundlePath "post-stop" ∧
    (∀ (list : HookSlice) (label₁ label₂ : String),
      (runHooks ws list cid bundlePath label₁).1 = (runHooks ws list cid bundlePath label₂).1 ∧
      invocations (runHooks ws list cid bundlePath label₁).2 =
        invocations (runHooks ws list cid bundlePath label₂).2 ∧
      effectsOf (runHooks ws list cid bundlePath label₁).2 =
        effectsOf (runHooks ws list cid bundlePath label₂).2) :=
  ⟨rfl, rfl, rfl, rfl, rfl, rfl,
    fun list label₁ label₂ => runHooks_label_irrelevant ws list cid bundlePath label₁ label₂⟩

/-! ## The detail of a failure -/

/-- The four ways in which `runHook` fails, each with the error it returns. -/
theorem runHook_failure_cases (w : Outcome) (hook : Hook) (cid bundlePath : String)
    (err : GoError) (h : (runHook w hook cid bundlePath).1 = some err) :
    (∃ e, w.start = some e ∧ err = .os e) ∨
    (∃ e, w.start = none ∧ (hook.Timeout = none ∨ w.timerFirst = false) ∧ w.wait = some e ∧
      err = .errorf (e.msg ++ ": stdout: " ++ w.stdout ++ ", stderr: " ++ w.stderr)) ∨
    (∃ e, w.start = none ∧ hook.Timeout ≠ none ∧ w.timerFirst = true ∧ w.kill = some e ∧
      err = .os e) ∨
    (w.start = none ∧ hook.Timeout ≠ none ∧ w.timerFirst = true ∧ w.kill = none ∧
      err = .errorf "Hook timeout") := by
  cases hs : w.start with
  | some e =>
    rw [runHook_start_failed w hook cid bundlePath e hs] at h
    left
    exact ⟨e, rfl, by simpa using h.symm⟩
  | none =>
    right
    cases hT : hook.Timeout with
    | none =>
      rw [runHook_no_timeout w hook cid bundlePath hs hT] at h
      cases hw : w.wait with
      | none => rw [hw] at h; simp at h
      | some e =>
        rw [hw] at h
        left
        exact ⟨e, rfl, Or.inl rfl, rfl, by simpa [waitFailure] using h.symm⟩
    | some t =>
      cases hsel : w.timerFirst with
      | false =>
        rw [runHook_done_first w hook cid bundlePath t hs hT hsel] at h
        cases hw : w.wait with
        | none => rw [hw] at h; simp at h
        | some e =>
          rw [hw] at h
          left
          exact ⟨e, rfl, Or.inr rfl, rfl, by simpa [waitFailure] using h.symm⟩
      | true =>
        rw [runHook_timer_first w hook cid bundlePath t hs hT hsel] at h
        right
        cases hk : w.kill with
        | some e =>
          rw [hk] at h
          left
          exact ⟨e, rfl, by simp, rfl, rfl, by simpa using h.symm⟩
        | none =>
          rw [hk] at h
          right
          exact ⟨rfl, by simp, rfl, rfl, by simpa using h.symm⟩

/-- Counterexample to C10 as stated: of the hooks `A, B, C` the second prints
`hello` and `boom` and runs into its timeout; the phase fails with the detail
`Hook timeout`, which contains neither the captured stdout nor the captured
stderr text. -/
theorem runHooks_timeout_detail_lacks_output :
    (secondTimesOut 1).stdout = "hello" ∧ (secondTimesOut 1).stderr = "boom" ∧
    (runHooks secondTimesOut (some [hookA, hookB, hookC]) "c1" "/run/b" "pre-start").1 =
      some (.errorf "Hook timeout") ∧
    ¬ ("hello".data <:+: (GoError.errorf "Hook timeout").Error.data) ∧
    ¬ ("boom".data <:+: (GoError.errorf "Hook timeout").Error.data) := by
  decide

/-- C10, amended: the error returned by a failing phase run is the error of the
first failing hook, and its form follows the kind of failure: after a spawn
failure it is the error of `cmd.Start()` unchanged; after a non-zero exit or wait
error that reached `runHook` it is the detail `<e>: stdout: <o>, stderr: <s>` with
the captured stdout and stderr text; after a timeout whose kill could not be
delivered it is the error of the kill unchanged; after a timeout whose kill was
delivered it is `Hook timeout`. -/
theorem runHooks_failure_detail (ws : Nat → Outcome) (hooks : HookSlice)
    (cid bundlePath hookType : String) (err : GoError)
    (h : (runHooks ws hooks cid bundlePath hookType).1 = some err) :
    ∃ k hook, hooks.elems[k]? = some hook ∧
      (∀ i, i < k → ∀ h, hooks.elems[i]? = some h →
        (runHook (ws i) h cid bundlePath).1 = none) ∧
      (runHook (ws k) hook cid bundlePath).1 = some err ∧
      ((∃ e, (ws k).start = some e ∧ err = .os e) ∨
       (∃ e, (ws k).start = none ∧ (hook.Timeout = none ∨ (ws k).timerFirst = false) ∧
          (ws k).wait = some e ∧
          err = .errorf (e.msg ++ ": stdout: " ++ (ws k).stdout ++ ", stderr: " ++
            (ws k).stderr)) ∨
       (∃ e, (ws k).start = none ∧ hook.Timeout ≠ none ∧ (ws k).timerFirst = true ∧
          (ws k).kill = some e ∧ err = .os e) ∨
       ((ws k).start = none ∧ hook.Timeout ≠ none ∧ (ws k).timerFirst = true ∧
          (ws k).kill = none ∧ err = .errorf "Hook timeout")) := by
  rcases all_ok_or_first_failure cid bundlePath hooks.elems ws with
    hall | ⟨k, hook, err', hk, hbefore, hk_fail⟩
  · rw [runHooks, runHooksLoop_all_ok cid bundlePath hookType hooks.elems ws hall] at h
    simp at h
  · rw [runHooks, runHooksLoop_first_failure cid bundlePath hookType hooks.elems ws k hook err'
      hk hbefore hk_fail] at h
    simp only [Option.some.injEq] at h
    subst h
    exact ⟨k, hook, hk, hbefore, hk_fail,
      runHook_failure_cases (ws k) hook cid bundlePath err' hk_fail⟩

/-- Witness of the amended C10: of the hooks `A, B, C` the second exits with
status one. -/
theorem runHooks_failure_detail_witness :
    (runHooks secondExitsOne (some [hookA, hookB, hookC]) "c1" "/run/b" "pre-start").1 =
      some (.errorf "exit status 1: stdout: out, stderr: boom") ∧
    ∃ k hook, (HookSlice.elems (some [hookA, hookB, hookC]))[k]? = some hook ∧
      (∀ i, i < k → ∀ h, (HookSlice.elems (some [hookA, hookB, hookC]))[i]? = some h →
        (runHook (secondExitsOne i) h "c1" "/run/b").1 = none) ∧
      (runHook (secondExitsOne k) hook "c1" "/run/b").1 =
        some (.errorf "exit status 1: stdout: out, stderr: boom") ∧
      ((∃ e, (secondExitsOne k).start = some e ∧
          GoError.errorf "exit status 1: stdout: out, stderr: boom" = .os e) ∨
       (∃ e, (secondExitsOne k).start = none ∧
          (hook.Timeout = none ∨ (secondExitsOne k).timerFirst = false) ∧
          (secondExitsOne k).wait = some e ∧
          GoError.errorf "exit status 1: stdout: out, stderr: boom" =
            .errorf (e.msg ++ ": stdout: " ++ (secondExitsOne k).stdout ++ ", stderr: " ++
              (secondExitsOne k).stderr)) ∨
       (∃ e, (secondExitsOne k).start = none ∧ hook.Timeout ≠ none ∧
          (secondExitsOne k).timerFirst = true ∧ (secondExitsOne k).kill = some e ∧
          GoError.errorf "exit status 1: stdout: out, stderr: boom" = .os e) ∨
       ((secondExitsOne k).start = none ∧ hook.Timeout ≠ none ∧
          (secondExitsOne k).timerFirst = true ∧ (secondExitsOne k).kill = none ∧
          GoError.errorf "exit status 1: stdout: out, stderr: boom" = .errorf "Hook timeout")) :=
  ⟨by decide,
    runHooks_failure_detail secondExitsOne (some [hookA, hookB, hookC]) "c1" "/run/b" "pre-start"
      _ (by decide)⟩

/-! ## The payload can be read back -/

theorem digitChar_isDigit (d : Nat) (h : d < 10) : (digitChar d).isDigit = true := by
  interval_cases d <;> rfl

theorem digitVal_digitChar (d : Nat) (h : d < 10) : digitVal (digitChar d) = d := by
  interval_cases d <;> rfl

theorem hexVal_hexDigit (k : Nat) (h : k < 16) : hexVal (hexDigit k) = some k := by
  interval_cases k <;> rfl

theorem decimalFuel_isDigit (fuel : Nat) :
    ∀ n, ∀ c ∈ decimalFuel fuel n, c.isDigit = true := by
  induction fuel with
  | zero => intro n c hc; simp [decimalFuel] at hc
  | succ fuel ih =>
    intro n c hc
    unfold decimalFuel at hc
    split at hc
    · rename_i hlt
      simp only [List.mem_singleton] at hc
      subst hc
      exact digitChar_isDigit n hlt
    · simp only [List.mem_append, List.mem_singleton] at hc
      rcases hc with hc | hc
      · exact ih _ c hc
      · subst hc
        exact digitChar_isDigit _ (Nat.mod_lt _ (by decide))

theorem decimalFuel_ne_nil (fuel n : Nat) : decimalFuel (fuel + 1) n ≠ [] := by
  unfold decimalFuel
  split <;> simp

theorem readNat_digits (ds : List Char) :
    ∀ (rest : List Char) (acc : Nat), (∀ c ∈ ds, c.isDigit = true) →
      readNat (ds ++ rest) acc = readNat rest (ds.foldl (fun a c => a * 10 + digitVal c) acc) := by
  induction ds with
  | nil => intro rest acc _; rfl
  | cons d ds ih =>
    intro rest acc hd
    have h1 : d.isDigit = true := hd d (by simp)
    simp only [List.cons_append, readNat, h1, if_true, List.foldl_cons]
    exact ih rest _ (fun c hc => hd c (by simp [hc]))

theorem foldl_decimalFuel (fuel : Nat) :
    ∀ n acc, n < fuel →
      (decimalFuel fuel n).foldl (fun a c => a * 10 + digitVal c) acc =
        acc * 10 ^ (decimalFuel fuel n).length + n := by
  induction fuel with
  | zero => intro n acc h; omega
  | succ fuel ih =>
    intro n acc h
    unfold decimalFuel
    split
    · rename_i hlt
      simp [digitVal_digitChar n hlt]
    · rename_i hge
      have hdiv : n / 10 < fuel := by omega
      rw [List.foldl_append, ih (n / 10) acc hdiv]
      simp only [List.foldl_cons, List.foldl_nil, List.length_append, List.length_singleton]
      rw [digitVal_digitChar _ (Nat.mod_lt _ (by decide))]
      rw [pow_succ]
      have := Nat.div_add_mod n 10
      nlinarith [this]

theorem readNat_stop (rest : List Char) (acc : Nat)
    (hrest : ∀ c, rest.head? = some c → c.isDigit = false) : readNat rest acc = (acc, rest) := by
  cases rest with
  | nil => rfl
  | cons c cs =>
    have := hrest c rfl
    simp [readNat, this]

theorem readNat_decimal (n : Nat) (rest : List Char)
    (hrest : ∀ c, rest.head? = some c → c.isDigit = false) :
    readNat (decimal n ++ rest) 0 = (n, rest) := by
  rw [decimal, readNat_digits _ rest 0 (decimalFuel_isDigit (n + 1) n),
    foldl_decimalFuel (n + 1) n 0 (Nat.lt_succ_self n), readNat_stop rest _ hrest]
  simp

theorem hex4_control (c : Char) (h : c.toNat < 32) :
    hex4 '0' '0' (hexDigit (c.toNat / 16)) (hexDigit (c.toNat % 16)) = some c := by
  have h0 : hexVal '0' = some 0 := rfl
  have h1 : hexVal (hexDigit (c.toNat / 16)) = some (c.toNat / 16) :=
    hexVal_hexDigit _ (by omega)
  have h2 : hexVal (hexDigit (c.toNat % 16)) = some (c.toNat % 16) :=
    hexVal_hexDigit _ (Nat.mod_lt _ (by decide))
  simp only [hex4, h0, h1, h2]
  have : ((0 * 16 + 0) * 16 + c.toNat / 16) * 16 + c.toNat % 16 = c.toNat := by omega
  rw [this, Char.ofNat_toNat]

theorem readString_quote (tail : List Char) :
    readString ('\"' :: tail) = some ([], tail) := by
  conv_lhs => rw [readString.eq_def]
  simp

theorem readString_escaped_quote (tail : List Char) :
    readString ('\\' :: '\"' :: tail) = consRead '\"' (readString tail) := by
  conv_lhs => rw [readString.eq_def]
  simp

theorem readString_escaped_backslash (tail : List Char) :
    readString ('\\' :: '\\' :: tail) = consRead '\\' (readString tail) := by
  conv_lhs => rw [readString.eq_def]
  simp

theorem readString_escaped_hex (a b x d u : Char) (tail : List Char)
    (h : hex4 a b x d = some u) :
    readString ('\\' :: 'u' :: a :: b :: x :: d :: tail) = consRead u (readString tail) := by
  conv_lhs => rw [readString.eq_def]
  simp [h]

theorem readString_plain (c : Char) (tail : List Char) (h1 : c ≠ '\"') (h2 : c ≠ '\\')
    (h3 : ¬ c.toNat < 32) :
    readString (c :: tail) = consRead c (readString tail) := by
  conv_lhs => rw [readString.eq_def]
  simp [h1, h2, h3]

theorem readString_escapeChar (c : Char) (tail : List Char) :
    readString (escapeChar c ++ tail) = consRead c (readString tail) := by
  unfold escapeChar
  split
  · rename_i h
    subst h
    exact readString_escaped_quote tail
  · split
    · rename_i h1 h
      subst h
      exact readString_escaped_backslash tail
    · split
      · rename_i h1 h2 h3
        exact readString_escaped_hex _ _ _ _ c tail (hex4_control c h3)
      · rename_i h1 h2 h3
        exact readString_plain c tail h1 h2 h3

theorem readString_escape (s : List Char) (rest : List Char) :
    readString (escape s ++ '\"' :: rest) = some (s, rest) := by
  induction s with
  | nil => exact readString_quote rest
  | cons c cs ih =>
    rw [escape, List.append_assoc, readString_escapeChar, ih]
    rfl

theorem readValue_renderValue (v : JValue) (rest : List Char)
    (hrest : ∀ c, rest.head? = some c → c.isDigit = false) :
    readValue (renderValue v ++ rest) = some (v, rest) := by
  cases v with
  | str s =>
    simp [renderValue, renderString, readValue, readString_escape]
  | num n =>
    cases n with
    | ofNat n =>
      have hne := decimalFuel_ne_nil n n
      have hdig := decimalFuel_isDigit (n + 1) n
      have hread := readNat_decimal n rest hrest
      simp only [renderValue, renderInt]
      unfold decimal at hread ⊢
      cases hd : decimalFuel (n + 1) n with
      | nil => exact absurd hd hne
      | cons d ds =>
        rw [hd] at hread hdig
        have h1 : d.isDigit = true := hdig d (by simp)
        have h2 : d ≠ '\"' := by rintro rfl; exact absurd h1 (by decide)
        have h3 : d ≠ '-' := by rintro rfl; exact absurd h1 (by decide)
        simp only [List.cons_append] at hread
        simp [readValue, h1, h2, h3, hread]
    | negSucc n =>
      have hne := decimalFuel_ne_nil (n + 1) (n + 1)
      have hdig := decimalFuel_isDigit (n + 1 + 1) (n + 1)
      have hread := readNat_decimal (n + 1) rest hrest
      simp only [renderValue, renderInt]
      unfold decimal at hread ⊢
      cases hd : decimalFuel (n + 1 + 1) (n + 1) with
      | nil => exact absurd hd hne
      | cons d ds =>
        rw [hd] at hread hdig
        have h1 : d.isDigit = true := hdig d (by simp)
        simp only [List.cons_append] at hread
        simp [readValue, h1, hread, Int.negSucc_eq]

theorem renderValue_ne_nil (v : JValue) : renderValue v ≠ [] := by
  cases v with
  | str s => simp [renderValue, renderString]
  | num n =>
    cases n with
    | ofNat n => simpa [renderValue, renderInt, decimal] using decimalFuel_ne_nil n n
    | negSucc n => simp [renderValue, renderInt]

theorem readMember_renderMember (m : String × JValue) (rest : List Char)
    (hrest : ∀ c, rest.head? = some c → c.isDigit = false) :
    readMember (renderMember m ++ rest) = some (m, rest) := by
  obtain ⟨k, v⟩ := m
  simp [renderMember, renderString, readMember, readString_escape,
    readValue_renderValue v rest hrest]

theorem readMembers_renderMembers (ms : List (String × JValue)) :
    ∀ (m : String × JValue) (fuel : Nat), ms.length < fuel →
      readMembers fuel (renderMembers m ms) = some (m :: ms, []) := by
  induction ms with
  | nil =>
    intro m fuel hf
    obtain ⟨fuel, rfl⟩ : ∃ f, fuel = f + 1 := ⟨fuel - 1, by omega⟩
    have hsep : ∀ c, (Char.ofNat 125 :: ([] : List Char)).head? = some c → c.isDigit = false := by
      intro c hc
      simp only [List.head?_cons, Option.some.injEq] at hc
      subst hc
      rfl
    simp [renderMembers, readMembers, readMember_renderMember m _ hsep]
  | cons m2 ms ih =>
    intro m fuel hf
    obtain ⟨fuel, rfl⟩ : ∃ f, fuel = f + 1 := ⟨fuel - 1, by omega⟩
    have hsep : ∀ c, (',' :: renderMembers m2 ms).head? = some c → c.isDigit = false := by
      intro c hc
      simp only [List.head?_cons, Option.some.injEq] at hc
      subst hc
      rfl
    have hne : (',' : Char) ≠ Char.ofNat 125 := by decide
    simp only [List.length_cons, Nat.add_lt_add_iff_right] at hf
    simp [renderMembers, readMembers, readMember_renderMember m _ hsep, hne, ih m2 fuel hf]

theorem length_renderMembers (ms : List (String × JValue)) :
    ∀ m : String × JValue, ms.length < (renderMembers m ms).length := by
  induction ms with
  | nil => intro m; simp [renderMembers]
  | cons m2 ms ih =>
    intro m
    have := ih m2
    simp only [renderMembers, List.length_append, List.length_cons]
    omega

theorem readObject_renderObject (ms : List (String × JValue)) :
    readObject (renderObject ms) = some ms := by
  cases ms with
  | nil => simp [renderObject, readObject]
  | cons m ms =>
    have hread := readMembers_renderMembers ms m _ (length_renderMembers ms m)
    have hhead : ∃ tail, renderMembers m ms = '\"' :: tail := by
      cases ms with
      | nil => exact ⟨_, by simp [renderMembers, renderMember, renderString]; rfl⟩
      | cons m2 ms => exact ⟨_, by simp [renderMembers, renderMember, renderString]; rfl⟩
    obtain ⟨tail, htail⟩ := hhead
    rw [htail, List.length_cons] at hread
    have hne : ('\"' : Char) ≠ Char.ofNat 125 := by decide
    simp [renderObject, readObject, htail, hne, hread]

theorem jsonUnmarshal_statePayload (pid : Int) (bundlePath cid : String) :
    jsonUnmarshal (statePayload pid bundlePath cid) =
      some { Pid := pid, Bundle := bundlePath, ID := cid } := by
  simp [jsonUnmarshal, statePayload, readObject_renderObject, stateMembers, fieldInt,
    fieldString, List.lookup]

theorem runHook_first_effect (w : Outcome) (hook : Hook) (cid bundlePath : String) :
    (runHook w hook cid bundlePath).2.head? =
      some (.start (hookCmd hook (statePayload w.getpid bundlePath cid))) := by
  cases hs : w.start with
  | some e => rw [runHook_start_failed w hook cid bundlePath e hs]; rfl
  | none =>
    cases hT : hook.Timeout with
    | none => rw [runHook_no_timeout w hook cid bundlePath hs hT]; rfl
    | some t =>
      cases hsel : w.timerFirst with
      | false => rw [runHook_done_first w hook cid bundlePath t hs hT hsel]; rfl
      | true => rw [runHook_timer_first w hook cid bundlePath t hs hT hsel]; rfl

/-- C6: for every process id, bundle path and container id, the first effect of
`runHook` is the start of a command whose standard input is the payload that
`jsonMarshal` returns for the state made of these three values; reading that
payload back gives exactly these three values; the payload is an object with
the three fields `pid`, `bundle` and `id`; for pid 4242, bundle `/run/b` and id
`c1` the payload is the text shown. -/
theorem runHook_payload_reads_back (w : Outcome) (hook : Hook) (cid bundlePath : String) :
    ∃ payload : String,
      jsonMarshal { Pid := w.getpid, Bundle := bundlePath, ID := cid } = .ok payload ∧
      (runHook w hook cid bundlePath).2.head? =
        some (.start (hookCmd hook payload)) ∧
      (hookCmd hook payload).Stdin = payload ∧
      jsonUnmarshal payload = some { Pid := w.getpid, Bundle := bundlePath, ID := cid } ∧
      (readObject payload.data).map (List.map Prod.fst) = some ["pid", "bundle", "id"] ∧
      jsonMarshal { Pid := 4242, Bundle := "/run/b", ID := "c1" } =
        .ok "\x7b\"pid\":4242,\"bundle\":\"/run/b\",\"id\":\"c1\"\x7d" := by
  refine ⟨statePayload w.getpid bundlePath cid, rfl, runHook_first_effect w hook cid bundlePath,
    rfl, jsonUnmarshal_statePayload w.getpid bundlePath cid, ?_, rfl⟩
  simp [statePayload, readObject_renderObject, stateMembers]

end Kata
